import Mathlib

/-!
Verification development for the notebook repository
`how-to-read-pytorch` (source file `src/notebooks/2-Pytorch-Autograd.ipynb`).

The repository is a tutorial: its only source file is a notebook whose code
cells invoke the external tensor/autograd library and a plotting library.
The behavioural claims are about that external autograd engine, which is not
part of the repository source; following the spec, the engine is modelled
here from the spec's own description (a computation graph of nodes recording
inputs, forward values and local gradient functions; a backward traversal
accumulating gradients into leaf nodes; accumulation across repeated backward
passes; optional graph retention; a no-grad mode suppressing history).
The structural claims about the notebook document itself are settled against
a direct embedding of its cell sequence.
-/

namespace Autograd

/-- Modelled from the spec: the external library's recorded computation
history, "a directed acyclic computation graph of operations, each node
recording its inputs, its forward value, and a local gradient
(Jacobian-vector) function".  `leaf id v` is an input array marked
requires-grad (identified by `id`, holding value `v`); `constNode` is an
untracked input; `unop f fd` is an elementwise operation with forward
function `f` and local derivative `fd`; `add` combines two subcomputations. -/
inductive Graph : Type where
  | leaf (id : Nat) (v : ℚ)
  | constNode (v : ℚ)
  | unop (f fd : ℚ → ℚ) (g : Graph)
  | add (a b : Graph)

/-- Modelled from the spec: the forward value recorded at a graph node. -/
def Graph.eval : Graph → ℚ
  | .leaf _ v => v
  | .constNode v => v
  | .unop f _ g => f g.eval
  | .add a b => a.eval + b.eval

/-- Whether the tracked input array `id` occurs in the computation history. -/
def Graph.touches : Graph → Nat → Bool
  | .leaf j _, id => decide (id = j)
  | .constNode _, _ => false
  | .unop _ _ g, id => g.touches id
  | .add a b, id => a.touches id || b.touches id

/-- The stored gradients: for each tracked input id, the optional contents of
its `.grad` field (`none` when no gradient has been stored yet). -/
abbrev GradStore := Nat → Option ℚ

/-- Modelled from the spec: the "topological-order backward traversal that
accumulates gradients into leaf nodes".  `up` is the upstream gradient
arriving at the node; at a tracked leaf the incoming gradient is added to the
previously stored value (`getD 0` reads an absent gradient as zero), never
overwriting it. -/
def accumGrad : Graph → ℚ → GradStore → GradStore
  | .leaf j _, up, s => fun i => if i = j then some ((s j).getD 0 + up) else s i
  | .constNode _, _, s => s
  | .unop _ fd g, up, s => accumGrad g (fd g.eval * up) s
  | .add a b, up, s => accumGrad b up (accumGrad a up s)

/-- The total derivative contribution of one backward traversal with upstream
gradient `up` to the tracked input `id` (the chain-rule value the traversal
adds into the store). -/
def Graph.contrib : Graph → ℚ → Nat → ℚ
  | .leaf j _, up, id => if id = j then up else 0
  | .constNode _, _, _ => 0
  | .unop _ fd g, up, id => g.contrib (fd g.eval * up) id
  | .add a b, up, id => a.contrib up id + b.contrib up id

/-- Modelled from the spec: a tensor handle as the notebook describes it:
its value, its requires-grad flag, and its attached computation history
(`none` for untracked or detached tensors, or results computed under
no-grad). -/
structure Tensor where
  value : ℚ
  requires_grad : Bool
  graph : Option Graph

/-- A fresh input array explicitly marked requires-grad (the notebook's
`torch.linspace(0, 5, 100, requires_grad=True)`). -/
def mkTracked (id : Nat) (v : ℚ) : Tensor :=
  ⟨v, true, some (Graph.leaf id v)⟩

/-- An array constructed without gradient tracking. -/
def mkUntracked (v : ℚ) : Tensor :=
  ⟨v, false, none⟩

/-- Modelled from the spec: applying an elementwise library operation to a
tensor.  When grad mode is on, the result inherits tracking and the operation
is appended to the computation history; inside a `torch.no_grad()` block
(`gradMode = false`) "all the autograd mechanics" are suppressed: the result
is untracked and carries no history. -/
def applyUnop (gradMode : Bool) (f fd : ℚ → ℚ) (t : Tensor) : Tensor :=
  { value := f t.value,
    requires_grad := gradMode && t.requires_grad,
    graph := if gradMode then t.graph.map (Graph.unop f fd) else none }

/-- A sequence of elementwise operations (each a forward function paired with
its local derivative) applied under a fixed grad mode, as in a computation
executed entirely inside or outside a no-grad block. -/
def runOps (gradMode : Bool) (ops : List ((ℚ → ℚ) × (ℚ → ℚ))) (t : Tensor) : Tensor :=
  ops.foldl (fun acc p => applyUnop gradMode p.1 p.2 acc) t

/-- Errors raised by the modelled library operations. -/
inductive AutogradError : Type where
  | noGradHistory
  | graphFreed
  | requiresGradConversion
deriving DecidableEq

/-- The mutable state a backward pass acts on: the stored gradients of all
tracked inputs, and whether the computation graph being differentiated is
still alive (it is deallocated after one backward pass unless retained). -/
structure BackwardState where
  store : GradStore
  alive : Bool

/-- Modelled from the spec: `y.backward()`.  It fails when the scalar carries
no computation history (it was computed with autograd suppressed), and when
the graph was already consumed by a previous backward pass; otherwise it runs
the backward traversal, accumulating a gradient into the `.grad` store of
every tracked upstream input, and keeps the graph alive only when
`retain_graph=True` was passed. -/
def backward (retain : Bool) (t : Tensor) (s : BackwardState) :
    Except AutogradError BackwardState :=
  match t.graph with
  | none => .error .noGradHistory
  | some g =>
      if s.alive then .ok ⟨accumGrad g 1 s.store, retain⟩
      else .error .graphFreed

/-- Modelled from the spec: converting a tensor to a plain untracked number
(as plotting does).  The library "disables requires-grad tensors from being
converted to untrackable numbers". -/
def toNumber (t : Tensor) : Except AutogradError ℚ :=
  if t.requires_grad then .error .requiresGradConversion else .ok t.value

/-- Modelled from the spec: `x.detach()` returns an untracked reference to
the same value, disconnected from the computation history. -/
def Tensor.detach (t : Tensor) : Tensor :=
  ⟨t.value, false, none⟩

/-- Modelled from the spec: a network is a collection of parameter tensors
together with a training/inference mode flag. -/
structure Net where
  params : List Tensor
  training : Bool

/-- Modelled from the spec: `net.eval()` "puts the network in inference mode
computationally"; it only clears the training flag. -/
def Net.eval (n : Net) : Net :=
  { n with training := false }

/-- Modelled from the spec: a mode-dependent operation such as dropout, whose
behaviour differs between training and inference mode (in inference mode it
is the identity). -/
def modeDependentOp (n : Net) (v : ℚ) : ℚ :=
  if n.training then 0 else v

/-- Modelled from the spec: a purely elementwise vector computation, in which
each output component depends only on the same component of the input (the
notebook's `y = (x**2).sin()`).  Each `emap` node carries the forward
function and its local derivative. -/
inductive VExpr : Type where
  | leaf
  | emap (f fd : ℚ → ℚ) (e : VExpr)

/-- Forward evaluation of an elementwise computation on input vector `x`. -/
def veval {n : Nat} (x : Fin n → ℚ) : VExpr → Fin n → ℚ
  | .leaf => x
  | .emap f _ e => fun i => f (veval x e i)

/-- Modelled from the spec: the backward traversal of an elementwise
computation: the upstream gradient vector `up` at the output is propagated
down to the input by the chain rule. -/
def vbackward {n : Nat} (x : Fin n → ℚ) : VExpr → (Fin n → ℚ) → (Fin n → ℚ)
  | .leaf, up => up
  | .emap _ fd e, up => vbackward x e (fun i => fd (veval x e i) * up i)

/-- The gradient of `y.sum()` with respect to `x` (the backward seed of a sum
is the all-ones vector), as `torch.autograd.grad(y.sum(), [x])` computes. -/
def gradSum {n : Nat} (x : Fin n → ℚ) (e : VExpr) : Fin n → ℚ :=
  vbackward x e (fun _ => 1)

/-- The gradient of the single output component `y[i]` with respect to `x`
(backward seed one-hot at `i`); its `i`-th entry is the elementwise
derivative `dy[i]/dx[i]`. -/
def gradComponent {n : Nat} (x : Fin n → ℚ) (e : VExpr) (i : Fin n) : Fin n → ℚ :=
  vbackward x e (fun j => if j = i then 1 else 0)

end Autograd

namespace Notebook

/-- The distinct external-library operations invoked by the notebook's code
cells (from `2-Pytorch-Autograd.ipynb`): `torch.linspace(..,
requires_grad=True)`, the array operations `**2`, `.sin()`, `.sum()`,
`torch.autograd.grad`, `.backward()`, `.detach()`, reading the `.grad`
attribute, and the plotting calls `plt.plot`, `plt.legend`, `plt.show`. -/
inductive ExtCall : Type where
  | linspace
  | powOp
  | sinFn
  | sumOp
  | autogradGrad
  | backwardCall
  | detachCall
  | gradRead
  | pltPlot
  | pltLegend
  | pltShow
deriving DecidableEq, BEq

/-- A notebook cell is either explanatory markdown text or code. -/
inductive CellType : Type where
  | markdown
  | code
deriving DecidableEq, BEq

/-- A cell of the notebook: its type and the external-library operations its
source invokes (empty for markdown cells). -/
structure Cell where
  cellType : CellType
  calls : List ExtCall
deriving DecidableEq, BEq

/-- The cell sequence of `2-Pytorch-Autograd.ipynb`, in order: an intro
markdown cell; the first code cell (linspace / y = (x**2).sin() /
autograd.grad on y.sum() / detach and plotting); two markdown cells (the
elementwise note and detaching; backprop and in-place gradients); the second
code cell (linspace / (x**2).sin() / y.sum().backward() / reading x.grad /
detach and plotting); and four markdown cells (accumulating and zeroing grad;
saving memory on inference; more tricks; the link to topic 3). -/
def notebookCells : List Cell :=
  [ ⟨CellType.markdown, []⟩,
    ⟨CellType.code,
      [ExtCall.linspace, ExtCall.powOp, ExtCall.sinFn, ExtCall.sumOp,
       ExtCall.autogradGrad, ExtCall.detachCall,
       ExtCall.pltPlot, ExtCall.pltLegend, ExtCall.pltShow]⟩,
    ⟨CellType.markdown, []⟩,
    ⟨CellType.markdown, []⟩,
    ⟨CellType.code,
      [ExtCall.linspace, ExtCall.powOp, ExtCall.sinFn, ExtCall.sumOp,
       ExtCall.backwardCall, ExtCall.gradRead, ExtCall.detachCall,
       ExtCall.pltPlot, ExtCall.pltLegend, ExtCall.pltShow]⟩,
    ⟨CellType.markdown, []⟩,
    ⟨CellType.markdown, []⟩,
    ⟨CellType.markdown, []⟩,
    ⟨CellType.markdown, []⟩ ]

/-- Whether a call is into the tensor/autograd library (as opposed to the
plotting library). -/
def isTorchCall : ExtCall → Bool
  | .pltPlot => false
  | .pltLegend => false
  | .pltShow => false
  | _ => true

/-- Whether a call is into the plotting library. -/
def isPlotCall : ExtCall → Bool
  | .pltPlot => true
  | .pltLegend => true
  | .pltShow => true
  | _ => false

/-- A cell invokes operations on both the tensor/autograd library and the
plotting library. -/
def cellInvokesBoth (c : Cell) : Bool :=
  c.calls.any isTorchCall && c.calls.any isPlotCall

/-- Stated from the claim's words: a cell sequence alternates text cells and
code cells when no two adjacent cells have the same type. -/
def alternates : List Cell → Bool
  | a :: b :: rest => !(a.cellType == b.cellType) && alternates (b :: rest)
  | _ => true

/-- No two code cells are adjacent: every code cell is separated from the
next by at least one markdown cell. -/
def noAdjacentCode : List Cell → Bool
  | a :: b :: rest =>
      !(a.cellType == CellType.code && b.cellType == CellType.code) &&
        noAdjacentCode (b :: rest)
  | _ => true

/-- Stated from the claim's words: the notebook's cell sequence alternates
text and code cells, and each cell invokes operations on the tensor/autograd
library and a plotting library. -/
def claimC9asStated : Bool :=
  alternates notebookCells && notebookCells.all cellInvokesBoth

/-- The interface set listed by the spec for the external library:
"construct a tracked array, compute a derivative of a scalar with respect to
one or more input arrays, accumulate or reset stored gradients, temporarily
disable gradient tracking", plus plotting for visualization. -/
inductive SpecCategory : Type where
  | constructTrackedArray
  | computeDerivative
  | gradAccumulateOrReset
  | disableTracking
  | plotting
deriving DecidableEq

/-- Stated from the claim's words: the spec category of each external call,
`none` when the call falls into no listed category.  `linspace` with
requires-grad constructs a tracked array; `autograd.grad` computes a
derivative; `backward` computes a derivative and accumulates stored
gradients; the plt calls plot.  The elementwise array operations (pow, sin,
sum) construct no fresh tracked array, compute no derivative and touch no
stored gradient; `detach` returns an untracked reference rather than
temporarily disabling tracking (that is the role of `torch.no_grad()`, which
the code cells never call); reading `.grad` neither accumulates nor resets
it. -/
def specCategoryOf : ExtCall → Option SpecCategory
  | .linspace => some .constructTrackedArray
  | .powOp => none
  | .sinFn => none
  | .sumOp => none
  | .autogradGrad => some .computeDerivative
  | .backwardCall => some .computeDerivative
  | .detachCall => none
  | .gradRead => none
  | .pltPlot => some .plotting
  | .pltLegend => some .plotting
  | .pltShow => some .plotting

/-- The amended interface set: the listed categories, together with deriving
a new array from tracked arrays by an elementwise operation (pow, sin, sum),
detaching an array to an untracked reference, and reading a stored
gradient. -/
inductive AmendedCategory : Type where
  | listed (c : SpecCategory)
  | deriveByOperation
  | detachUntracked
  | readStoredGradient
deriving DecidableEq

/-- The amended category of each external call invoked by the code cells. -/
def amendedCategoryOf : ExtCall → Option AmendedCategory
  | .powOp => some .deriveByOperation
  | .sinFn => some .deriveByOperation
  | .sumOp => some .deriveByOperation
  | .detachCall => some .detachUntracked
  | .gradRead => some .readStoredGradient
  | c => (specCategoryOf c).map AmendedCategory.listed

/-- All external calls invoked across the notebook's code cells. -/
def allCalls : List ExtCall :=
  (notebookCells.map Cell.calls).flatten

end Notebook

namespace Autograd

/-- The squaring function, the forward half of the notebook's `x**2`. -/
def sq : ℚ → ℚ := fun v => v * v

/-- The local derivative of squaring. -/
def sqDeriv : ℚ → ℚ := fun v => 2 * v

/-- A concrete recorded computation: squaring applied to the tracked input
array 0 holding value 3. -/
def demoGraph : Graph := Graph.unop sq sqDeriv (Graph.leaf 0 3)

/-- The tensor holding the result of `demoGraph`. -/
def demoTensor : Tensor := ⟨9, true, some demoGraph⟩

/-- A gradient store in which input 0 already holds a gradient 5 from a
previous backward pass. -/
def demoStore : GradStore := fun i => if i = 0 then some 5 else none

/-- A backward state with a live graph and the pre-existing gradient. -/
def demoState : BackwardState := ⟨demoStore, true⟩

/-- The state after one backward pass through `demoGraph` without graph
retention. -/
def demoS1 : BackwardState := ⟨accumGrad demoGraph 1 demoStore, false⟩

/-- A concrete computation touching two tracked inputs: square of input 0
plus input 1. -/
def demo2Graph : Graph :=
  Graph.add (Graph.unop sq sqDeriv (Graph.leaf 0 2)) (Graph.leaf 1 7)

/-- The tensor holding the result of `demo2Graph`. -/
def demo2Tensor : Tensor := ⟨11, true, some demo2Graph⟩

/-- A backward state with a live graph and no stored gradients. -/
def demo2State : BackwardState := ⟨fun _ => none, true⟩

/-- A one-operation computation, for running under a no-grad block. -/
def demoOps : List ((ℚ → ℚ) × (ℚ → ℚ)) := [(sq, sqDeriv)]

theorem contrib_eq_zero (g : Graph) (up : ℚ) (id : Nat)
    (h : g.touches id = false) : g.contrib up id = 0 := by
  induction g generalizing up with
  | leaf j v =>
      simp only [Graph.touches, decide_eq_false_iff_not] at h
      simp [Graph.contrib, h]
  | constNode v => simp [Graph.contrib]
  | unop f fd g ih =>
      simp only [Graph.touches] at h
      simp [Graph.contrib, ih _ h]
  | add a b iha ihb =>
      simp only [Graph.touches, Bool.or_eq_false_iff] at h
      simp [Graph.contrib, iha _ h.1, ihb _ h.2]

theorem accumGrad_point (g : Graph) (up : ℚ) (s : GradStore) (id : Nat) :
    accumGrad g up s id =
      if g.touches id = true then some ((s id).getD 0 + g.contrib up id)
      else s id := by
  induction g generalizing up s with
  | leaf j v =>
      simp only [accumGrad, Graph.touches, Graph.contrib]
      by_cases h : id = j
      · subst h; simp
      · simp [h]
  | constNode v => simp [accumGrad, Graph.touches, Graph.contrib]
  | unop f fd g ih =>
      simp only [accumGrad, Graph.touches, Graph.contrib]
      exact ih _ _
  | add a b iha ihb =>
      simp only [accumGrad, Graph.touches, Graph.contrib]
      rw [ihb, iha]
      by_cases ha : a.touches id = true <;> by_cases hb : b.touches id = true
      · simp [ha, hb, add_assoc]
      · simp [ha, hb, contrib_eq_zero b up id (by simpa using hb)]
      · simp [ha, hb, contrib_eq_zero a up id (by simpa using ha)]
      · simp [ha, hb]

theorem runOps_false_untracked (ops : List ((ℚ → ℚ) × (ℚ → ℚ))) (t : Tensor)
    (hg : t.graph = none) (hr : t.requires_grad = false) :
    (runOps false ops t).graph = none ∧
      (runOps false ops t).requires_grad = false := by
  induction ops generalizing t with
  | nil => exact ⟨hg, hr⟩
  | cons p rest ih =>
      simp only [runOps, List.foldl_cons]
      exact ih _ rfl rfl

theorem runOps_true_tracked (ops : List ((ℚ → ℚ) × (ℚ → ℚ))) (t : Tensor)
    (id : Nat) (hr : t.requires_grad = true)
    (hg : ∃ g, t.graph = some g ∧ g.touches id = true) :
    (runOps true ops t).requires_grad = true ∧
      ∃ g, (runOps true ops t).graph = some g ∧ g.touches id = true := by
  induction ops generalizing t with
  | nil => exact ⟨hr, hg⟩
  | cons p rest ih =>
      obtain ⟨g, hgsome, htouch⟩ := hg
      simp only [runOps, List.foldl_cons]
      refine ih _ (by simp [applyUnop, hr]) ?_
      exact ⟨Graph.unop p.1 p.2 g, by simp [applyUnop, hgsome], htouch⟩

theorem vbackward_factor {n : Nat} (e : VExpr) (x : Fin n → ℚ)
    (up : Fin n → ℚ) (i : Fin n) :
    vbackward x e up i = up i * vbackward x e (fun _ => 1) i := by
  induction e generalizing up with
  | leaf => simp [vbackward]
  | emap f fd e ih =>
      simp only [vbackward]
      rw [ih, ih (fun j => fd (veval x e j) * 1)]
      ring

end Autograd

namespace Autograd

/-- C1: For every tensor whose computation history reaches a tracked input
`id` whose `.grad` store already holds a gradient `g0` from a previous
backward pass, calling `backward` again (on a live graph) is not an error,
and afterwards the stored gradient of `id` equals the old value `g0` plus
the newly computed contribution — added, not overwritten. -/
theorem backward_accumulates (t : Tensor) (g : Graph) (retain : Bool)
    (s : BackwardState) (id : Nat) (g0 : ℚ)
    (hg : t.graph = some g) (halive : s.alive = true)
    (hid : g.touches id = true) (hstore : s.store id = some g0) :
    ∃ s', backward retain t s = .ok s' ∧
      s'.store id = some (g0 + g.contrib 1 id) := by
  refine ⟨⟨accumGrad g 1 s.store, retain⟩, by simp [backward, hg, halive], ?_⟩
  show accumGrad g 1 s.store id = _
  rw [accumGrad_point, if_pos hid, hstore]
  rfl

/-- Witness for C1: on the concrete graph `demoGraph` (square of input 0
holding 3) with a previously stored gradient 5 on input 0, backward succeeds
and leaves `5 + contrib` (the contribution being `2 * 3 * 1 = 6`) in the
store. -/
theorem backward_accumulates_witness :
    ∃ s', backward false demoTensor demoState = .ok s' ∧
      s'.store 0 = some (5 + Graph.contrib demoGraph 1 0) :=
  backward_accumulates demoTensor demoGraph false demoState 0 5 rfl rfl rfl rfl

/-- C2: calling `backward` on a scalar result with a live computation history
succeeds, and it stores a gradient in the `.grad` store of every tracked
upstream input its history reaches, accumulating into any previously stored
value (an absent previous gradient reads as zero). -/
theorem backward_populates_all (retain : Bool) (t : Tensor) (g : Graph)
    (s : BackwardState) (hg : t.graph = some g) (halive : s.alive = true) :
    ∃ s', backward retain t s = .ok s' ∧
      ∀ id, g.touches id = true →
        s'.store id = some ((s.store id).getD 0 + g.contrib 1 id) := by
  refine ⟨⟨accumGrad g 1 s.store, retain⟩, by simp [backward, hg, halive], ?_⟩
  intro id hid
  show accumGrad g 1 s.store id = _
  rw [accumGrad_point, if_pos hid]

/-- Witness for C2: on the concrete graph `demo2Graph` (square of input 0
plus input 1), backward succeeds and both tracked inputs 0 and 1 receive a
stored gradient. -/
theorem backward_populates_all_witness :
    ∃ s', backward false demo2Tensor demo2State = .ok s' ∧
      s'.store 0 = some ((demo2State.store 0).getD 0 + Graph.contrib demo2Graph 1 0) ∧
      s'.store 1 = some ((demo2State.store 1).getD 0 + Graph.contrib demo2Graph 1 1) := by
  obtain ⟨s', hok, hall⟩ :=
    backward_populates_all false demo2Tensor demo2Graph demo2State rfl rfl
  exact ⟨s', hok, hall 0 rfl, hall 1 rfl⟩

/-- C3: a computation executed entirely inside a no-grad block (at least one
operation applied with grad mode off) yields an untracked result carrying no
computation history, and a subsequent `backward` call on it does not succeed:
it returns the no-grad-history error and populates no gradient. -/
theorem no_grad_blocks_backward (ops : List ((ℚ → ℚ) × (ℚ → ℚ))) (t : Tensor)
    (retain : Bool) (s : BackwardState) (hne : ops ≠ []) :
    (runOps false ops t).graph = none ∧
    (runOps false ops t).requires_grad = false ∧
    backward retain (runOps false ops t) s = .error .noGradHistory := by
  obtain ⟨p, rest, rfl⟩ := List.exists_cons_of_ne_nil hne
  have h : (runOps false (p :: rest) t).graph = none ∧
      (runOps false (p :: rest) t).requires_grad = false := by
    simp only [runOps, List.foldl_cons]
    exact runOps_false_untracked rest _ rfl rfl
  exact ⟨h.1, h.2, by simp [backward, h.1]⟩

/-- Witness for C3: squaring the tracked input `mkTracked 0 3` inside a
no-grad block yields a history-free untracked tensor on which backward
fails. -/
theorem no_grad_blocks_backward_witness :
    (runOps false demoOps (mkTracked 0 3)).graph = none ∧
    (runOps false demoOps (mkTracked 0 3)).requires_grad = false ∧
    backward false (runOps false demoOps (mkTracked 0 3)) demoState =
      .error .noGradHistory :=
  no_grad_blocks_backward demoOps (mkTracked 0 3) false demoState
    (List.cons_ne_nil _ _)

/-- C4: after one backward pass over a computation history, a second backward
call on the same history raises an error precisely when the first pass was
made without `retain_graph=True`; passing `retain_graph=True` keeps the graph
alive so the second pass succeeds. -/
theorem retain_graph_controls_second_backward (retain₁ : Bool) (t : Tensor)
    (g : Graph) (s s₁ : BackwardState) (retain₂ : Bool)
    (hg : t.graph = some g) (h₁ : backward retain₁ t s = .ok s₁) :
    (∃ e, backward retain₂ t s₁ = .error e) ↔ retain₁ = false := by
  cases halive : s.alive with
  | false => simp [backward, hg, halive] at h₁
  | true =>
      simp only [backward, hg, halive, if_true] at h₁
      obtain rfl : BackwardState.mk (accumGrad g 1 s.store) retain₁ = s₁ :=
        Except.ok.inj h₁
      cases retain₁ <;> simp [backward, hg]

/-- Witness for C4: a first backward pass over `demoGraph` without retention
leaves the state `demoS1`, and a second backward call on that state errors
(the equivalence instantiated at `retain₁ = false`). -/
theorem retain_graph_controls_second_backward_witness :
    (∃ e, backward true demoTensor demoS1 = .error e) ↔ false = false :=
  retain_graph_controls_second_backward false demoTensor demoGraph demoState
    demoS1 true rfl rfl

/-- C5: starting from an input array marked requires-grad, every tensor
derived from it by operations applied in grad mode is itself tracked
(requires-grad with a recorded history reaching the input), so a backward
traversal from the derived result computes a gradient for the input (the
gradient store receives a value at the input's id). -/
theorem tracking_propagates (id : Nat) (v : ℚ)
    (ops : List ((ℚ → ℚ) × (ℚ → ℚ))) :
    (runOps true ops (mkTracked id v)).requires_grad = true ∧
    ∃ g, (runOps true ops (mkTracked id v)).graph = some g ∧
      g.touches id = true ∧
      accumGrad g 1 (fun _ => none) id = some (g.contrib 1 id) := by
  obtain ⟨hr, g, hgsome, htouch⟩ :=
    runOps_true_tracked ops (mkTracked id v) id rfl
      ⟨Graph.leaf id v, rfl, by simp [Graph.touches]⟩
  refine ⟨hr, g, hgsome, htouch, ?_⟩
  rw [accumGrad_point, if_pos htouch]
  simp

/-- C6: a tensor with the requires-grad flag set cannot be converted to a
plain untracked number (the conversion errors); calling `.detach()` first
returns an untracked reference on which the conversion succeeds with the same
value. -/
theorem requires_grad_blocks_conversion (t : Tensor)
    (h : t.requires_grad = true) :
    toNumber t = .error .requiresGradConversion ∧
    t.detach.requires_grad = false ∧
    toNumber t.detach = .ok t.value := by
  exact ⟨by simp [toNumber, h], rfl, rfl⟩

/-- Witness for C6: the tracked input `mkTracked 0 3` cannot be converted,
and its detached reference converts to its value. -/
theorem requires_grad_blocks_conversion_witness :
    toNumber (mkTracked 0 3) = .error .requiresGradConversion ∧
    (Tensor.detach (mkTracked 0 3)).requires_grad = false ∧
    toNumber (Tensor.detach (mkTracked 0 3)) = .ok (mkTracked 0 3).value :=
  requires_grad_blocks_conversion (mkTracked 0 3) rfl

/-- C7: for a purely elementwise computation (each output component depends
only on the same input component), the gradient of the summed output with
respect to the input agrees, at every index `i`, with the elementwise
derivative `dy[i]/dx[i]`: the single gradient vector of the sum equals the
vector of elementwise derivatives. -/
theorem grad_sum_eq_elementwise_derivative {n : Nat} (x : Fin n → ℚ)
    (e : VExpr) (i : Fin n) :
    gradSum x e i = gradComponent x e i i := by
  have h1 := vbackward_factor e x (fun _ => 1) i
  have h2 := vbackward_factor e x (fun j => if j = i then 1 else 0) i
  unfold gradSum gradComponent
  rw [h1, h2]
  simp

/-- C8: `net.eval()` changes only the computational mode: it switches the
network to inference behaviour (the training flag is cleared, so
mode-dependent operations take their inference branch) and leaves the
parameter list — in particular every parameter's requires-grad flag —
unchanged. -/
theorem net_eval_frame (net : Net) :
    (Net.eval net).params = net.params ∧
    (Net.eval net).params.map Tensor.requires_grad =
      net.params.map Tensor.requires_grad ∧
    (Net.eval net).training = false ∧
    ∀ v : ℚ, modeDependentOp (Net.eval net) v = v :=
  ⟨rfl, rfl, rfl, fun v => rfl⟩

end Autograd

namespace Notebook

/-- Counterexample for C9: the notebook's cell sequence does not alternate
text cells and code cells with each cell invoking operations on both
libraries — the third and fourth cells are both markdown, and markdown cells
invoke no library operations at all. -/
theorem notebook_structure_counterexample : claimC9asStated = false := by
  decide

/-- C9 (amended): the repository's single notebook consists of markdown text
cells and code cells with text and code interleaved — no two code cells are
adjacent, though consecutive markdown cells occur — and each code cell (not
each cell) invokes operations on both the external tensor/autograd library
and the plotting library. -/
theorem notebook_structure_amended :
    noAdjacentCode notebookCells = true ∧
    ((notebookCells.filter fun c => c.cellType == CellType.code).all
      cellInvokesBoth) = true ∧
    (notebookCells.any fun c => c.cellType == CellType.markdown) = true ∧
    (notebookCells.any fun c => c.cellType == CellType.code) = true := by
  decide

/-- Counterexample for C10: the `.detach()` call invoked by the notebook's
code cells falls into none of the interface categories listed by the spec
(construct a tracked array, compute a derivative, accumulate or reset stored
gradients, temporarily disable gradient tracking, plotting). -/
theorem interface_set_counterexample :
    allCalls.contains ExtCall.detachCall = true ∧
    specCategoryOf ExtCall.detachCall = none := by
  decide

/-- C10 (amended): every external-library operation invoked by the example
code cells falls into the spec's listed interface set extended with three
further kinds actually present: deriving a new array from tracked arrays by
an elementwise operation (power, sine, sum), detaching an array to an
untracked reference, and reading a stored gradient. -/
theorem interface_set_amended :
    (allCalls.all fun c => (amendedCategoryOf c).isSome) = true := by
  decide

end Notebook
